import Mathlib

/-!
Verification of the QIR merge server (`src/server.js`).

The server merges a base quality-inspection-report ("QIR") PDF with a list
of certificate PDFs: it loads the base document and each certificate,
computes a page plan, builds an index page, stamps footer page numbers
(and a heading) on the pages, and assembles everything into one document.

The byte-level PDF mechanics are owned by the external `pdf-lib` library;
the spec treats them as an external collaborator.  We embed a document as a
list of pages, each carrying its size and the ordered list of drawing
operations performed on it, and we embed byte strings as an inductive type
on which the library's `load` either fails or returns a document.  Network
fetches and font metrics are oracles passed in as function arguments.
-/

namespace QIRMerge

/-- JavaScript `Math.round`: round half towards positive infinity. -/
def jsRound (q : ℚ) : ℤ := ⌊q + 1/2⌋

/-- An RGB colour as passed to `rgb(r, g, b)`. -/
structure Color where
  r : ℚ
  g : ℚ
  b : ℚ
deriving DecidableEq, Repr

/-- A drawing operation performed on a page, in the order the code issues
them: `drawRectangle`, `drawLine`, `drawText` (with the font recorded as a
bold flag, `Helvetica` vs `HelveticaBold`). -/
inductive DrawOp where
  | rect (x y width height : ℚ) (color : Color) (opacity : Option ℚ)
  | line (x1 y1 x2 y2 thickness : ℚ) (color : Color)
  | text (s : String) (x y size : ℚ) (bold : Bool) (color : Color)
deriving DecidableEq, Repr

/-- A PDF page: its physical size and the accumulated drawing operations.
Copying a page preserves this data; stamping appends operations. -/
structure Page where
  width : ℚ
  height : ℚ
  ops : List DrawOp
deriving DecidableEq, Repr

/-- A loaded PDF document is its ordered list of pages. -/
abbrev PDFDoc := List Page

/-- Abstract byte strings: either opaque bytes (fetched or base64-decoded)
that the library parses to `content` when that is `some`, or the
serialization `doc.save()` of a document. -/
inductive Bytes where
  | raw (tag : ℕ) (content : Option PDFDoc)
  | saved (doc : PDFDoc)
deriving DecidableEq, Repr

/-- `PDFDocument.load`: parse bytes into a document, or fail.  Serialized
documents round-trip; opaque bytes parse to their content when present. -/
def loadPDF : Bytes → Option PDFDoc
  | .raw _ c => c
  | .saved d => some d

/-- Font metrics oracle: `widthOfTextAtSize` for a font (bold flag), a
string and a size. -/
abbrev FontMetrics := Bool → String → ℚ → ℚ

/-- A document source from the request body: `{ type: 'url'|'base64', value }`. -/
structure Source where
  type : String
  value : String
deriving DecidableEq, Repr

/-- Outcome of one network fetch: a thrown error (timeout etc.) or a
response with an HTTP status and a body. -/
inductive FetchOutcome where
  | netError (msg : String)
  | response (status : ℕ) (body : Bytes)
deriving DecidableEq, Repr

/-- Network oracle: what `fetch` returns for each URL. -/
abbrev FetchOracle := String → FetchOutcome

/-- Base64-decoding oracle: `Buffer.from(value, 'base64')` never throws and
yields some bytes. -/
abbrev DecodeOracle := String → Bytes

/-- `loadPDFFromSource` (server.js lines 31-39): fetch the URL and fail on
a non-ok status (`res.ok` means status 200-299), or base64-decode. -/
def loadPDFFromSource (fetchUrl : FetchOracle) (decode64 : DecodeOracle)
    (src : Source) : Except String Bytes :=
  if src.type = "url" then
    match fetchUrl src.value with
    | .netError m => .error m
    | .response status body =>
        if 200 ≤ status ∧ status ≤ 299 then .ok body
        else .error ("HTTP " ++ toString status ++ " fetching PDF")
  else
    .ok (decode64 src.value)

/-- One certificate entry of the request body; `none` models an absent
field. -/
structure CertInput where
  label : Option String
  type : String
  value : Option String
deriving DecidableEq, Repr

/-- A successfully loaded certificate (step 2 of the handler). -/
structure CertDatum where
  label : String
  bytes : Bytes
  pageCount : ℕ
deriving DecidableEq, Repr

/-- A certificate with its assigned start page (step 3, `{ ...c, startPage }`). -/
structure CertEntry extends CertDatum where
  startPage : ℕ
deriving DecidableEq, Repr

/-- JavaScript `!s.trim()`: `trim` strips whitespace from both ends, so
the trimmed string is empty (falsy) exactly when every character is
whitespace. -/
def isBlank (s : String) : Bool :=
  s.data.all fun c => c.isWhitespace

/-- JavaScript `cert.label || 'Certificate'`: an absent or empty label
falls back to `"Certificate"` (empty strings are falsy). -/
def effLabel : Option String → String
  | none => "Certificate"
  | some s => if s = "" then "Certificate" else s

/-- The certificate-loading loop (server.js lines 215-224): skip entries
whose `value` is absent or whitespace-only before any resolution; fetch
and parse the rest, dropping (catch) any certificate whose fetch or parse
fails. -/
def computeCertData (fetchUrl : FetchOracle) (decode64 : DecodeOracle) :
    List CertInput → List CertDatum
  | [] => []
  | cert :: rest =>
    match cert.value with
    | none => computeCertData fetchUrl decode64 rest
    | some v =>
      if isBlank v then computeCertData fetchUrl decode64 rest
      else
        match loadPDFFromSource fetchUrl decode64 ⟨cert.type, v⟩ with
        | .error _ => computeCertData fetchUrl decode64 rest
        | .ok bytes =>
          match loadPDF bytes with
          | none => computeCertData fetchUrl decode64 rest
          | some pdf =>
              ⟨effLabel cert.label, bytes, pdf.length⟩ ::
                computeCertData fetchUrl decode64 rest

/-- The running-page fold underlying `certEntries` (server.js lines
236-240): each certificate starts where the previous one ended. -/
def certEntriesFrom (runningPage : ℕ) : List CertDatum → List CertEntry
  | [] => []
  | c :: rest => ⟨c, runningPage⟩ :: certEntriesFrom (runningPage + c.pageCount) rest

/-- `certEntries` (server.js lines 233-240): the first certificate starts
at `qirPageCount + 2` (`certStartPage`). -/
def computeCertEntries (qirPageCount : ℕ) (certData : List CertDatum) :
    List CertEntry :=
  certEntriesFrom (qirPageCount + 2) certData

/-! ### Index page (server.js lines 42-126) -/

/-- Index page width `W = 841.89`. -/
def idxW : ℚ := 841.89
/-- Index page height `H = 595.28`. -/
def idxH : ℚ := 595.28

def BLACK : Color := ⟨0.10, 0.10, 0.10⟩
def DGRAY : Color := ⟨0.30, 0.30, 0.30⟩
def MGRAY : Color := ⟨0.55, 0.55, 0.55⟩
def LGRAY : Color := ⟨0.82, 0.82, 0.82⟩
def OFFWHT : Color := ⟨0.95, 0.95, 0.95⟩
def HDRBG : Color := ⟨0.88, 0.88, 0.88⟩
def WHITE : Color := ⟨1.00, 1.00, 1.00⟩

/-- Table geometry constants of `buildIndexPage`. -/
def TBL_X : ℚ := 40
def TBL_W : ℚ := idxW - 80
def PAD : ℚ := 10
def ROW_H : ℚ := 24

/-- Mutable state of `buildIndexPage`'s row cursor: the current `rowY` and
the operations drawn so far (in order). -/
structure RowState where
  rowY : ℚ
  ops : List DrawOp
deriving DecidableEq, Repr

/-- `drawRow(label, pageNum, isSub, isHeader)` (server.js lines 83-101):
draw the row background, its bottom separator, the left-aligned (indented
for sub-rows) label and the right-aligned page string, then advance the
cursor.  `label` and `pgStr` are the `String(...)` conversions the code
performs. -/
def drawRow (widthOf : FontMetrics) (st : RowState)
    (label pgStr : String) (isSub isHeader : Bool) : RowState :=
  let bg := if isHeader then HDRBG else (if isSub then WHITE else OFFWHT)
  let indent : ℚ := if isSub then 18 else 0
  let fontSize : ℚ := if isHeader then 8.5 else 8
  let color := if isHeader then BLACK else (if isSub then MGRAY else DGRAY)
  let textY := st.rowY - ROW_H + (ROW_H - fontSize) / 2 + 1
  let pgW := widthOf isHeader pgStr fontSize
  { rowY := st.rowY - ROW_H
    ops := st.ops ++
      [.rect TBL_X (st.rowY - ROW_H) TBL_W ROW_H bg none,
       .line TBL_X (st.rowY - ROW_H) (TBL_X + TBL_W) (st.rowY - ROW_H) 0.3 LGRAY,
       .text label (TBL_X + PAD + indent) textY fontSize isHeader color,
       .text pgStr (TBL_X + TBL_W - PAD - pgW) textY fontSize isHeader
         (if isHeader then BLACK else DGRAY)] }

/-- The `for (const c of certEntries) drawRow(c.label, c.startPage, true)`
loop at the bottom of the index table. -/
def drawCertRows (widthOf : FontMetrics) (st : RowState) :
    List CertEntry → RowState
  | [] => st
  | c :: rest =>
      drawCertRows widthOf
        (drawRow widthOf st c.label (toString c.startPage) true false) rest

/-- JavaScript `certEntries[0]?.startPage || '—'`: the placeholder is shown
when there is no certificate (and, by numeric falsiness, when the first
start page is `0`, which cannot happen in the handler where start pages
are at least `2`). -/
def firstCertStartDisplay : List CertEntry → String
  | [] => "—"
  | e :: _ => if e.startPage = 0 then "—" else toString e.startPage

/-- `buildIndexPage` (server.js lines 42-126): one landscape A4 page
carrying the title block and the table of contents, row by row. -/
def buildIndexPage (widthOf : FontMetrics) (reportNo partName date : String)
    (inspectionPage : ℕ) (certEntries : List CertEntry) : PDFDoc :=
  let headerLine := reportNo ++ "   ·   " ++ partName ++ "   ·   " ++ date
  let tableTopY := idxH - 112
  let st0 : RowState :=
    { rowY := idxH - 112
      ops :=
        [.rect 0 0 idxW idxH WHITE none,
         .text "Quality Inspection Report" 40 (idxH - 52) 20 true BLACK,
         .text headerLine 40 (idxH - 70) 9 false MGRAY,
         .line 40 (idxH - 80) (idxW - 40) (idxH - 80) 0.5 LGRAY,
         .text "TABLE OF CONTENTS" 40 (idxH - 97) 8 true MGRAY,
         .line TBL_X tableTopY (TBL_X + TBL_W) tableTopY 0.6 DGRAY] }
  let st1 := drawRow widthOf st0 "Section" "Page" false true
  let st2 := drawRow widthOf st1 "Report Header & Part Information" "1" false false
  let st3 := drawRow widthOf st2 "Index" "2" false false
  let st4 := drawRow widthOf st3 "Part Drawing" "3" false false
  let st5 := drawRow widthOf st4 "Inspection" (toString inspectionPage) false false
  let st6 := drawRow widthOf st5 "Dimensional Inspection" (toString inspectionPage) true false
  let st7 := drawRow widthOf st6 "Visual Inspection" "—" true false
  let st8 := drawRow widthOf st7 "Tests & Certificates"
    (firstCertStartDisplay certEntries) false false
  let st9 := drawCertRows widthOf st8 certEntries
  let p2W := widthOf false "2" 8
  [{ width := idxW, height := idxH
     ops := st9.ops ++
       [.line TBL_X st9.rowY (TBL_X + TBL_W) st9.rowY 0.6 DGRAY,
        .line TBL_X tableTopY TBL_X st9.rowY 0.6 DGRAY,
        .line (TBL_X + TBL_W) tableTopY (TBL_X + TBL_W) st9.rowY 0.6 DGRAY,
        .text "2" (idxW / 2 - p2W / 2) 20 8 false MGRAY] }]

/-! ### Stamping (server.js lines 129-198, 250-262) -/

/-- The footer-number drawing shared by `stampPageNumbers` and the QIR
stamping loop (lines 166-175 and 252-260): a near-opaque full-width band
at the bottom of the page, with a font size normalized against the
reference width `841`, and the page number centred in the band. -/
def stampNumberOnPage (widthOf : FontMetrics) (page : Page) (n : ℕ) : Page :=
  let fontSize : ℚ := (jsRound (page.width / 841 * 8 * 10) : ℚ) / 10
  let barH : ℚ := fontSize * 2.6
  let pgStr := toString n
  let pgW := widthOf false pgStr fontSize
  { page with
    ops := page.ops ++
      [.rect 0 0 page.width barH ⟨0.96, 0.96, 0.96⟩ (some 0.9),
       .text pgStr (page.width / 2 - pgW / 2) (barH * 0.25) fontSize false
         ⟨0.20, 0.20, 0.20⟩] }

/-- The per-page loop of `stampPageNumbers` (lines 166-176): page `i`
(0-indexed) gets the number `startPageNum + i`. -/
def stampPageNumbersDoc (widthOf : FontMetrics) (doc : PDFDoc)
    (startPageNum : ℕ) : PDFDoc :=
  doc.mapIdx fun i page => stampNumberOnPage widthOf page (startPageNum + i)

/-- `stampPageNumbers` (server.js lines 162-179): load the bytes — with no
try/catch, so a parse failure propagates as an error — stamp every page,
and save. -/
def stampPageNumbers (widthOf : FontMetrics) (pdfBytes : Bytes)
    (startPageNum : ℕ) : Except String Bytes :=
  match loadPDF pdfBytes with
  | none => .error "Failed to parse PDF document"
  | some pdf => .ok (.saved (stampPageNumbersDoc widthOf pdf startPageNum))

/-- The drawing body of `stampHeading` (lines 135-154) on the first page:
a translucent white strip near the top and the centred bold label, sized
against the reference width `841`. -/
def stampHeadingPage (widthOf : FontMetrics) (page : Page) (label : String) : Page :=
  let fontSize : ℚ := (jsRound (page.width / 841 * 11 * 10) : ℚ) / 10
  let textW := widthOf true label fontSize
  { page with
    ops := page.ops ++
      [.rect 0 (page.height - fontSize * 2.8) page.width (fontSize * 2.8)
         ⟨1, 1, 1⟩ (some 0.75),
       .text label ((page.width - textW) / 2) (page.height - fontSize * 2.0)
         fontSize true ⟨0.10, 0.10, 0.10⟩] }

/-- `stampHeading` (server.js lines 129-158): skip empty/whitespace labels,
and return the original bytes (catch) when the document cannot be parsed —
or when it has no first page, where `page.getSize()` throws inside the
try block. -/
def stampHeading (widthOf : FontMetrics) (pdfBytes : Bytes) (label : String) :
    Bytes :=
  if isBlank label then pdfBytes
  else
    match loadPDF pdfBytes with
    | none => pdfBytes
    | some [] => pdfBytes
    | some (p0 :: rest) => .saved (stampHeadingPage widthOf p0 label :: rest)

/-- The QIR stamping loop (server.js lines 250-262): page `i` (0-indexed)
gets `i === 0 ? 1 : i + 2` — page 1 stays 1, later pages shift by one for
the inserted index page. -/
def stampQIRDoc (widthOf : FontMetrics) (doc : PDFDoc) : PDFDoc :=
  doc.mapIdx fun i page =>
    stampNumberOnPage widthOf page (if i = 0 then 1 else i + 2)

/-! ### The `/merge` handler (server.js lines 200-297) -/

/-- The request body of `POST /merge`; `none` models an absent field, for
which the destructuring defaults (`reportNo='QIR'`, `partName=''`,
`date=''`, `certificates=[]`) apply. -/
structure MergeRequest where
  reportNo : Option String
  partName : Option String
  date : Option String
  qirSource : Option Source
  certificates : Option (List CertInput)
deriving DecidableEq, Repr

/-- The HTTP response of the handler: a `200` with the `Content-Type` and
`Content-Disposition` headers and the serialized document, or an error
status with the JSON error message (`res.status(...).json({ error })`). -/
inductive MergeResponse where
  | success (contentType contentDisposition : String) (body : Bytes)
  | failure (status : ℕ) (error : String)
deriving DecidableEq, Repr

/-- The fixed inspection-page constant `INSPECTION_PAGE = 4` (line 233). -/
def INSPECTION_PAGE : ℕ := 4

/-- Filename characters the sanitizer keeps: the regex class
`[a-zA-Z0-9\-_.]`. -/
def isFilenameChar (c : Char) : Bool :=
  c.isAlphanum || c = '-' || c = '_' || c = '.'

/-- `.replace(/[^a-zA-Z0-9\-_.]/g, '_')` (line 286): every character
outside the class is replaced by an underscore. -/
def sanitizeFilename (s : String) : String :=
  String.mk (s.data.map fun c => if isFilenameChar c then c else '_')

/-- One iteration of the certificate merge loop (lines 276-283): stamp the
heading, stamp the page numbers (whose internal load failure would
propagate), reload and copy all pages.  Reloading the freshly saved bytes
always succeeds. -/
def certStampedPages (widthOf : FontMetrics) (cert : CertEntry) :
    Except String PDFDoc :=
  match stampPageNumbers widthOf (stampHeading widthOf cert.bytes cert.label)
      cert.startPage with
  | .error m => .error m
  | .ok numbered =>
    match loadPDF numbered with
    | none => .error "Failed to parse PDF document"
    | some cp => .ok cp

/-- The certificate merge loop over `certEntries`, collecting the pages
appended to the merged document in order; an error anywhere aborts the
whole request (it is thrown inside the handler's `try`). -/
def mergeCertPages (widthOf : FontMetrics) :
    List CertEntry → Except String (List Page)
  | [] => .ok []
  | cert :: rest =>
    match certStampedPages widthOf cert with
    | .error m => .error m
    | .ok pgs =>
      match mergeCertPages widthOf rest with
      | .error m => .error m
      | .ok restPgs => .ok (pgs ++ restPgs)

/-- `app.post('/merge')` (server.js lines 201-297).  Steps: destructure
with defaults; load and parse the QIR (`loadPDFFromSource(qirSource)`
throws a TypeError when `qirSource` is absent); load the certificates,
dropping failures; compute `certEntries`; build the index; stamp the QIR
footer numbers; merge `qirPages[0]`, the index page, `qirPages[1..]` and
each certificate's stamped pages; serialize and answer `200`, or answer
`500 { error }` when anything in the `try` block threw.

Saved bytes round-trip through `loadPDF`, so the reload of the stamped QIR
(line 267) and of the one-page index (line 271) are inlined; the
`take 1`/`drop 1` split mirrors `addPage(qirPages[0])` followed by the
`for (let i = 1; ...)` loop (the server is only used with base documents
that have at least one page). -/
def mergeHandler (fetchUrl : FetchOracle) (decode64 : DecodeOracle)
    (widthOf : FontMetrics) (req : MergeRequest) : MergeResponse :=
  let reportNo := req.reportNo.getD "QIR"
  let partName := req.partName.getD ""
  let date := req.date.getD ""
  let certificates := req.certificates.getD []
  let qirLoad : Except String Bytes :=
    match req.qirSource with
    | none => .error "Cannot read properties of undefined (reading 'type')"
    | some src => loadPDFFromSource fetchUrl decode64 src
  match qirLoad with
  | .error m => .failure 500 m
  | .ok qirBytes =>
    match loadPDF qirBytes with
    | none => .failure 500 "Failed to parse PDF document"
    | some qirPdf =>
      let qirPageCount := qirPdf.length
      let certData := computeCertData fetchUrl decode64 certificates
      let certEntries := computeCertEntries qirPageCount certData
      let indexDoc :=
        buildIndexPage widthOf reportNo partName date INSPECTION_PAGE certEntries
      let qirStamped := stampQIRDoc widthOf qirPdf
      match mergeCertPages widthOf certEntries with
      | .error m => .failure 500 m
      | .ok certPages =>
        let mergedPages :=
          qirStamped.take 1 ++ indexDoc.take 1 ++ qirStamped.drop 1 ++ certPages
        let filename :=
          sanitizeFilename ("QIR-" ++ reportNo ++ "-" ++ date ++ ".pdf")
        .success "application/pdf"
          ("attachment; filename=\"" ++ filename ++ "\"")
          (.saved mergedPages)

/-! ### Observation helpers for the theorems -/

/-- The strings drawn on a page, in drawing order. -/
def textsOf (ops : List DrawOp) : List String :=
  ops.filterMap fun op =>
    match op with
    | .text s _ _ _ _ _ => some s
    | _ => none

/-- The last string drawn by the given operations (the footer number, for
a freshly stamped page). -/
def lastTextOf (ops : List DrawOp) : Option String :=
  (textsOf ops).getLast?

/-- A trivial width oracle used by the concrete witnesses. -/
def constWidth : FontMetrics := fun _ _ _ => 0

/-- A one-page A4-landscape document used by the concrete witnesses. -/
def onePageDoc : PDFDoc := [⟨841, 595, []⟩]

/-! ### Decimal rendering is injective

`String(n)` in the source renders a page number in decimal; to reason about
"different visible numbers" we prove that `toString` on naturals is
injective, via a structural model of `Nat.toDigitsCore`. -/

/-- The decimal digit characters of `n`, most significant first. -/
def decRepr (n : ℕ) : List Char :=
  if _h : n < 10 then [Nat.digitChar n]
  else decRepr (n / 10) ++ [Nat.digitChar (n % 10)]
decreasing_by exact Nat.div_lt_self (by omega) (by omega)

theorem decRepr_lt (n : ℕ) (h : n < 10) : decRepr n = [Nat.digitChar n] := by
  rw [decRepr]
  simp [h]

theorem decRepr_ge (n : ℕ) (h : ¬ n < 10) :
    decRepr n = decRepr (n / 10) ++ [Nat.digitChar (n % 10)] := by
  rw [decRepr]
  simp [h]

theorem decRepr_ne_nil (n : ℕ) : decRepr n ≠ [] := by
  by_cases h : n < 10
  · rw [decRepr_lt n h]
    simp
  · rw [decRepr_ge n h]
    simp

theorem toDigitsCore_ten (fuel : ℕ) :
    ∀ (n : ℕ) (acc : List Char), n < fuel →
      Nat.toDigitsCore 10 fuel n acc = decRepr n ++ acc := by
  induction fuel with
  | zero => intro n acc h; omega
  | succ f ih =>
    intro n acc h
    rw [Nat.toDigitsCore]
    by_cases h10 : n / 10 = 0
    · have hn : n < 10 := by omega
      rw [decRepr]
      simp [h10, hn, Nat.mod_eq_of_lt hn]
    · have hn : ¬ n < 10 := by
        intro hlt
        exact h10 (Nat.div_eq_of_lt hlt)
      have hlt : n / 10 < f := by
        have := Nat.div_lt_self (by omega : 0 < n) (by omega : 1 < 10)
        omega
      simp only [h10, if_false]
      rw [ih (n / 10) _ hlt, decRepr_ge n hn]
      simp

theorem digitChar_inj_below_ten :
    ∀ a < 10, ∀ b < 10, Nat.digitChar a = Nat.digitChar b → a = b := by decide

theorem decRepr_inj (m : ℕ) : ∀ n, decRepr m = decRepr n → m = n := by
  induction m using Nat.strong_induction_on with
  | _ m ih =>
    intro n heq
    by_cases hm : m < 10 <;> by_cases hn : n < 10
    · rw [decRepr_lt m hm, decRepr_lt n hn] at heq
      simp at heq
      exact digitChar_inj_below_ten m hm n hn heq
    · exfalso
      rw [decRepr_lt m hm, decRepr_ge n hn] at heq
      have := congrArg List.length heq
      simp at this
      exact decRepr_ne_nil _ this
    · exfalso
      rw [decRepr_ge m hm, decRepr_lt n hn] at heq
      have := congrArg List.length heq
      simp at this
      exact decRepr_ne_nil _ this
    · rw [decRepr_ge m hm, decRepr_ge n hn] at heq
      obtain ⟨hpre, hdig⟩ := List.append_inj' heq (by simp)
      have hdiv : m / 10 = n / 10 :=
        ih (m / 10) (Nat.div_lt_self (by omega) (by omega)) (n / 10) hpre
      have hmod : m % 10 = n % 10 := by
        have h1 : m % 10 < 10 := Nat.mod_lt _ (by omega)
        have h2 : n % 10 < 10 := Nat.mod_lt _ (by omega)
        simp at hdig
        exact digitChar_inj_below_ten _ h1 _ h2 hdig
      omega

theorem natToString_inj {m n : ℕ} (h : toString m = toString n) : m = n := by
  have h' : Nat.repr m = Nat.repr n := h
  unfold Nat.repr Nat.toDigits at h'
  have hdata := congrArg String.data h'
  simp [List.asString] at hdata
  rw [toDigitsCore_ten (m + 1) m [] (by omega),
      toDigitsCore_ten (n + 1) n [] (by omega)] at hdata
  simp at hdata
  exact decRepr_inj m n hdata

/-! ### Supporting lemmas about the page plan -/

theorem certEntriesFrom_map (l : List CertDatum) :
    ∀ p, (certEntriesFrom p l).map (fun e => (e.label, e.pageCount))
      = l.map (fun c => (c.label, c.pageCount)) := by
  induction l with
  | nil => intro p; rfl
  | cons c rest ih =>
    intro p
    simp [certEntriesFrom, ih]

theorem certEntriesFrom_chain (l : List CertDatum) :
    ∀ p, List.Chain' (fun a b => a.startPage + a.pageCount = b.startPage)
      (certEntriesFrom p l) := by
  induction l with
  | nil => intro p; simp [certEntriesFrom]
  | cons c rest ih =>
    intro p
    rw [certEntriesFrom, List.chain'_cons']
    refine ⟨?_, ih _⟩
    intro y hy
    cases rest with
    | nil => simp [certEntriesFrom] at hy
    | cons d rest' =>
      simp [certEntriesFrom] at hy
      rw [← hy]

/-- Claim C1: for every base page count `B ≥ 1` and ordered certificate
data with page counts `c_1..c_n`, the computed `certEntries` preserve the
input order (same labels and page counts, in order), the first entry
starts at `B + 2`, adjacent entries are contiguous
(`startPage + pageCount` of one is the `startPage` of the next), and an
empty input yields an empty plan. -/
theorem certEntries_plan_invariants (B : ℕ) (hB : 1 ≤ B)
    (certData : List CertDatum) :
    ((computeCertEntries B certData).map (fun e => (e.label, e.pageCount))
        = certData.map (fun c => (c.label, c.pageCount)))
    ∧ (∀ e, (computeCertEntries B certData).head? = some e →
        e.startPage = B + 2)
    ∧ List.Chain' (fun a b => a.startPage + a.pageCount = b.startPage)
        (computeCertEntries B certData)
    ∧ (certData = [] → computeCertEntries B certData = []) := by
  refine ⟨certEntriesFrom_map certData _, ?_, certEntriesFrom_chain certData _, ?_⟩
  · intro e he
    cases certData with
    | nil => simp [computeCertEntries, certEntriesFrom] at he
    | cons c rest =>
      simp [computeCertEntries, certEntriesFrom] at he
      rw [← he]
  · intro h
    rw [h]
    rfl

/-- Witness for C1 at the spec's own example: `basePageCount = 5`, page
counts `[3, 2]`, giving start pages `7` and `10`. -/
theorem certEntries_plan_invariants_witness :
    (1 ≤ 5
    ∧ ((computeCertEntries 5
          [⟨"Mill TC", .raw 0 none, 3⟩, ⟨"Hardness", .raw 1 none, 2⟩]).map
            (fun e => (e.label, e.pageCount))
        = [("Mill TC", 3), ("Hardness", 2)])
    ∧ (∀ e, (computeCertEntries 5
          [⟨"Mill TC", .raw 0 none, 3⟩, ⟨"Hardness", .raw 1 none, 2⟩]).head?
          = some e → e.startPage = 5 + 2)
    ∧ List.Chain' (fun a b => a.startPage + a.pageCount = b.startPage)
        (computeCertEntries 5
          [⟨"Mill TC", .raw 0 none, 3⟩, ⟨"Hardness", .raw 1 none, 2⟩])
    ∧ ([⟨"Mill TC", .raw 0 none, 3⟩, ⟨"Hardness", .raw 1 none, 2⟩]
         = ([] : List CertDatum) →
        computeCertEntries 5
          [⟨"Mill TC", .raw 0 none, 3⟩, ⟨"Hardness", .raw 1 none, 2⟩] = []))
    ∧ (computeCertEntries 5
        [⟨"Mill TC", .raw 0 none, 3⟩, ⟨"Hardness", .raw 1 none, 2⟩]).map
          (fun e => e.startPage) = [7, 10] := by
  refine ⟨⟨by norm_num, ?_⟩, by decide⟩
  have h := certEntries_plan_invariants 5 (by norm_num)
    [⟨"Mill TC", .raw 0 none, 3⟩, ⟨"Hardness", .raw 1 none, 2⟩]
  simpa using h

/-! ### Supporting lemmas about the index page -/

theorem textsOf_append (a b : List DrawOp) :
    textsOf (a ++ b) = textsOf a ++ textsOf b := by
  simp [textsOf]

theorem textsOf_drawRow (widthOf : FontMetrics) (st : RowState)
    (label pgStr : String) (isSub isHeader : Bool) :
    textsOf (drawRow widthOf st label pgStr isSub isHeader).ops
      = textsOf st.ops ++ [label, pgStr] := by
  simp [drawRow, textsOf]

theorem textsOf_drawCertRows (widthOf : FontMetrics) (certs : List CertEntry) :
    ∀ st, textsOf (drawCertRows widthOf st certs).ops
      = textsOf st.ops
        ++ certs.flatMap (fun c => [c.label, toString c.startPage]) := by
  induction certs with
  | nil => intro st; simp [drawCertRows, textsOf]
  | cons c rest ih =>
    intro st
    rw [drawCertRows, ih, textsOf_drawRow]
    simp

/-- The full text content of the index page, row by row. -/
theorem buildIndexPage_textsOf (widthOf : FontMetrics)
    (reportNo partName date : String) (inspectionPage : ℕ)
    (certEntries : List CertEntry) :
    (buildIndexPage widthOf reportNo partName date inspectionPage
        certEntries).map (fun p => textsOf p.ops)
      = [["Quality Inspection Report",
          reportNo ++ "   ·   " ++ partName ++ "   ·   " ++ date,
          "TABLE OF CONTENTS", "Section", "Page",
          "Report Header & Part Information", "1", "Index", "2",
          "Part Drawing", "3", "Inspection", toString inspectionPage,
          "Dimensional Inspection", toString inspectionPage,
          "Visual Inspection", "—", "Tests & Certificates",
          firstCertStartDisplay certEntries]
         ++ certEntries.flatMap (fun c => [c.label, toString c.startPage])
         ++ ["2"]] := by
  simp only [buildIndexPage, List.map]
  rw [textsOf_append, textsOf_drawCertRows]
  simp only [textsOf_drawRow]
  simp [textsOf]

/-- The text drawing operations of a page, keeping the rendering
attributes: the string, its x position, font size, bold flag and colour,
in drawing order. -/
def textOps (ops : List DrawOp) : List (String × ℚ × ℚ × Bool × Color) :=
  ops.filterMap fun op =>
    match op with
    | .text s x _ size bold color => some (s, x, size, bold, color)
    | _ => none

/-- The fill colours of the rectangles drawn on a page, in drawing order;
on the index page these are the page background followed by one fill per
table row. -/
def rowFills (ops : List DrawOp) : List Color :=
  ops.filterMap fun op =>
    match op with
    | .rect _ _ _ _ color _ => some color
    | _ => none

theorem textOps_append (a b : List DrawOp) :
    textOps (a ++ b) = textOps a ++ textOps b := by
  simp [textOps]

theorem rowFills_append (a b : List DrawOp) :
    rowFills (a ++ b) = rowFills a ++ rowFills b := by
  simp [rowFills]

theorem textOps_drawRow (widthOf : FontMetrics) (st : RowState)
    (label pgStr : String) (isSub isHeader : Bool) :
    textOps (drawRow widthOf st label pgStr isSub isHeader).ops
      = textOps st.ops ++
        [(label, TBL_X + PAD + (if isSub then (18 : ℚ) else 0),
          if isHeader then (8.5 : ℚ) else 8, isHeader,
          if isHeader then BLACK else if isSub then MGRAY else DGRAY),
         (pgStr,
          TBL_X + TBL_W - PAD
            - widthOf isHeader pgStr (if isHeader then (8.5 : ℚ) else 8),
          if isHeader then (8.5 : ℚ) else 8, isHeader,
          if isHeader then BLACK else DGRAY)] := by
  simp [drawRow, textOps]

theorem rowFills_drawRow (widthOf : FontMetrics) (st : RowState)
    (label pgStr : String) (isSub isHeader : Bool) :
    rowFills (drawRow widthOf st label pgStr isSub isHeader).ops
      = rowFills st.ops
        ++ [if isHeader then HDRBG else if isSub then WHITE else OFFWHT] := by
  simp [drawRow, rowFills]

theorem textOps_drawCertRows (widthOf : FontMetrics)
    (certs : List CertEntry) :
    ∀ st, textOps (drawCertRows widthOf st certs).ops
      = textOps st.ops
        ++ certs.flatMap (fun c =>
            [(c.label, TBL_X + PAD + 18, (8 : ℚ), false, MGRAY),
             (toString c.startPage,
              TBL_X + TBL_W - PAD
                - widthOf false (toString c.startPage) 8,
              (8 : ℚ), false, DGRAY)]) := by
  induction certs with
  | nil => intro st; simp [drawCertRows]
  | cons c rest ih =>
    intro st
    rw [drawCertRows, ih, textOps_drawRow]
    simp

theorem rowFills_drawCertRows (widthOf : FontMetrics)
    (certs : List CertEntry) :
    ∀ st, rowFills (drawCertRows widthOf st certs).ops
      = rowFills st.ops ++ certs.map (fun _ => WHITE) := by
  induction certs with
  | nil => intro st; simp [drawCertRows]
  | cons c rest ih =>
    intro st
    rw [drawCertRows, ih, rowFills_drawRow]
    simp

/-- Counterexample to claim C3 as stated: the Tests & Certificates row is
not a header row.  `drawRow('Tests & Certificates', ...)` (server.js line
113) is called with `isHeader` defaulting to `false`, so its label is set
in the normal weight, dark grey, over the ordinary off-white row fill —
unlike the genuine header row `Section`/`Page`, which is bold, black and
sits on the distinguished header fill. -/
theorem buildIndexPage_tests_row_not_header_cex :
    ((buildIndexPage constWidth "R1" "W" "D" 4
        [⟨⟨"Mill TC", .raw 0 none, 1⟩, 7⟩]).map (fun p =>
          ((textOps p.ops).filter
            (fun t => t.1 = "Tests & Certificates")).map
              (fun t => (t.1, t.2.2.2.1))))
      = [[("Tests & Certificates", false)]]
    ∧ ((buildIndexPage constWidth "R1" "W" "D" 4
        [⟨⟨"Mill TC", .raw 0 none, 1⟩, 7⟩]).map (fun p =>
          ((textOps p.ops).filter (fun t => t.1 = "Section")).map
            (fun t => (t.1, t.2.2.2.1))))
      = [[("Section", true)]]
    ∧ ((buildIndexPage constWidth "R1" "W" "D" 4
        [⟨⟨"Mill TC", .raw 0 none, 1⟩, 7⟩]).map (fun p => rowFills p.ops))
      = [[WHITE, HDRBG, OFFWHT, OFFWHT, OFFWHT, OFFWHT, WHITE, WHITE,
          OFFWHT, WHITE]]
    ∧ OFFWHT ≠ HDRBG ∧ (false : Bool) ≠ true := by
  refine ⟨?_, ?_, ?_, ?_, ?_⟩
  · rfl
  · rfl
  · rfl
  · intro h
    simp only [OFFWHT, HDRBG] at h
    injection h with h1 h2 h3
    norm_num at h1
  · decide

/-- Claim C3 amended: `buildIndexPage` always produces exactly one page,
whose rows appear in this fixed order with these rendering attributes —
after the title block, a bold black `Section`/`Page` column-header row on
the header fill; then the plain rows Report Header & Part Information → 1,
Index → 2, Part Drawing → 3 and Inspection → `inspectionPage` (normal
weight, dark grey, off-white fill); Dimensional Inspection and Visual
Inspection as indented grey sub-rows on white (same number, resp. the
placeholder `—`); then a Tests & Certificates row that is drawn as an
**ordinary row, not a header row** (normal weight, plain fill), showing
the first certificate's start page or `—` when there are none; then one
indented sub-row per certificate entry with its label and start page; and
the page's own number `2`.  Page-number strings are right-aligned
(`x = TBL_X + TBL_W - PAD - width`).  Start pages are positive in the
handler, which the hypothesis records, so JavaScript's `|| '—'` fallback
on the number `0` does not fire. -/
theorem buildIndexPage_rows_styled (widthOf : FontMetrics)
    (reportNo partName date : String) (inspectionPage : ℕ)
    (certEntries : List CertEntry)
    (hpos : ∀ e ∈ certEntries, 0 < e.startPage) :
    (buildIndexPage widthOf reportNo partName date inspectionPage
        certEntries).length = 1
    ∧ ∀ page ∈ buildIndexPage widthOf reportNo partName date inspectionPage
        certEntries,
        textOps page.ops =
          [("Quality Inspection Report", 40, 20, true, BLACK),
           (reportNo ++ "   ·   " ++ partName ++ "   ·   " ++ date,
            40, 9, false, MGRAY),
           ("TABLE OF CONTENTS", 40, 8, true, MGRAY),
           ("Section", TBL_X + PAD, (8.5 : ℚ), true, BLACK),
           ("Page", TBL_X + TBL_W - PAD - widthOf true "Page" 8.5,
            (8.5 : ℚ), true, BLACK),
           ("Report Header & Part Information", TBL_X + PAD, 8, false, DGRAY),
           ("1", TBL_X + TBL_W - PAD - widthOf false "1" 8, 8, false, DGRAY),
           ("Index", TBL_X + PAD, 8, false, DGRAY),
           ("2", TBL_X + TBL_W - PAD - widthOf false "2" 8, 8, false, DGRAY),
           ("Part Drawing", TBL_X + PAD, 8, false, DGRAY),
           ("3", TBL_X + TBL_W - PAD - widthOf false "3" 8, 8, false, DGRAY),
           ("Inspection", TBL_X + PAD, 8, false, DGRAY),
           (toString inspectionPage,
            TBL_X + TBL_W - PAD
              - widthOf false (toString inspectionPage) 8,
            8, false, DGRAY),
           ("Dimensional Inspection", TBL_X + PAD + 18, 8, false, MGRAY),
           (toString inspectionPage,
            TBL_X + TBL_W - PAD
              - widthOf false (toString inspectionPage) 8,
            8, false, DGRAY),
           ("Visual Inspection", TBL_X + PAD + 18, 8, false, MGRAY),
           ("—", TBL_X + TBL_W - PAD - widthOf false "—" 8, 8, false, DGRAY),
           ("Tests & Certificates", TBL_X + PAD, 8, false, DGRAY),
           ((match certEntries with
             | [] => "—"
             | e :: _ => toString e.startPage),
            TBL_X + TBL_W - PAD
              - widthOf false
                  (match certEntries with
                   | [] => "—"
                   | e :: _ => toString e.startPage) 8,
            8, false, DGRAY)]
          ++ certEntries.flatMap (fun c =>
              [(c.label, TBL_X + PAD + 18, (8 : ℚ), false, MGRAY),
               (toString c.startPage,
                TBL_X + TBL_W - PAD
                  - widthOf false (toString c.startPage) 8,
                (8 : ℚ), false, DGRAY)])
          ++ [("2", idxW / 2 - widthOf false "2" 8 / 2, 8, false, MGRAY)]
        ∧ rowFills page.ops
            = [WHITE, HDRBG, OFFWHT, OFFWHT, OFFWHT, OFFWHT, WHITE, WHITE,
               OFFWHT]
              ++ certEntries.map (fun _ => WHITE) := by
  have hdisp : firstCertStartDisplay certEntries
      = (match certEntries with
         | [] => "—"
         | e :: _ => toString e.startPage) := by
    cases certEntries with
    | nil => rfl
    | cons e rest =>
      have he : 0 < e.startPage := hpos e (by simp)
      simp [firstCertStartDisplay]
      omega
  refine ⟨rfl, ?_⟩
  intro page hp
  simp only [buildIndexPage, List.mem_singleton] at hp
  subst hp
  constructor
  · rw [textOps_append, textOps_drawCertRows]
    simp only [textOps_drawRow, hdisp]
    simp [textOps]
  · rw [rowFills_append, rowFills_drawCertRows]
    simp only [rowFills_drawRow]
    simp [rowFills]

/-- Witness for the amended C3: concrete header data, `inspectionPage = 4`
and one certificate at page 7; the (string, bold flag) projection and the
row fills show the header row bold on the header fill and the Tests &
Certificates row plain. -/
theorem buildIndexPage_rows_styled_witness :
    (∀ e ∈ [(⟨⟨"Mill TC", .raw 0 none, 3⟩, 7⟩ : CertEntry)],
      0 < e.startPage)
    ∧ (buildIndexPage constWidth "R1" "Widget" "2026-01-01" 4
        [⟨⟨"Mill TC", .raw 0 none, 3⟩, 7⟩]).length = 1
    ∧ ((buildIndexPage constWidth "R1" "Widget" "2026-01-01" 4
        [⟨⟨"Mill TC", .raw 0 none, 3⟩, 7⟩]).map (fun p =>
          (textOps p.ops).map (fun t => (t.1, t.2.2.2.1))))
      = [[("Quality Inspection Report", true),
          ("R1   ·   Widget   ·   2026-01-01", false),
          ("TABLE OF CONTENTS", true),
          ("Section", true), ("Page", true),
          ("Report Header & Part Information", false), ("1", false),
          ("Index", false), ("2", false),
          ("Part Drawing", false), ("3", false),
          ("Inspection", false), ("4", false),
          ("Dimensional Inspection", false), ("4", false),
          ("Visual Inspection", false), ("—", false),
          ("Tests & Certificates", false), ("7", false),
          ("Mill TC", false), ("7", false),
          ("2", false)]]
    ∧ ((buildIndexPage constWidth "R1" "Widget" "2026-01-01" 4
        [⟨⟨"Mill TC", .raw 0 none, 3⟩, 7⟩]).map (fun p => rowFills p.ops))
      = [[WHITE, HDRBG, OFFWHT, OFFWHT, OFFWHT, OFFWHT, WHITE, WHITE,
          OFFWHT, WHITE]] := by
  refine ⟨by decide, ?_, rfl, rfl⟩
  exact (buildIndexPage_rows_styled constWidth "R1" "Widget" "2026-01-01" 4
    [⟨⟨"Mill TC", .raw 0 none, 3⟩, 7⟩] (by decide)).1

/-! ### Supporting lemmas about stamping -/

theorem lastTextOf_stampNumberOnPage (widthOf : FontMetrics) (page : Page)
    (n : ℕ) :
    lastTextOf (stampNumberOnPage widthOf page n).ops = some (toString n) := by
  simp [stampNumberOnPage, lastTextOf, textsOf]

/-- Claim C4: for every loadable input and start number `s`,
`stampPageNumbers` succeeds and returns the serialized document in which
page `i` (0-indexed) keeps its original content and additionally carries a
near-opaque footer band at the bottom spanning the page's full width, with
the font size normalized against the page's own width relative to the
reference width `841` (`Math.round((width/841)*8*10)/10`), and the text
`String(s + i)` centred horizontally in the band; the page count is
unchanged, and stamping with two different start numbers yields the same
page count but a different visible number on every page. -/
theorem stampPageNumbers_spec (widthOf : FontMetrics) (pdfBytes : Bytes)
    (doc : PDFDoc) (s s' : ℕ) (hload : loadPDF pdfBytes = some doc)
    (hne : s ≠ s') :
    stampPageNumbers widthOf pdfBytes s
      = .ok (.saved (stampPageNumbersDoc widthOf doc s))
    ∧ (stampPageNumbersDoc widthOf doc s).length = doc.length
    ∧ (∀ i : ℕ, (stampPageNumbersDoc widthOf doc s)[i]?
        = doc[i]?.map (fun page =>
            { page with ops := page.ops ++
                [DrawOp.rect 0 0 page.width
                   (((jsRound (page.width / 841 * 8 * 10) : ℚ) / 10) * 2.6)
                   ⟨0.96, 0.96, 0.96⟩ (some 0.9),
                 DrawOp.text (toString (s + i))
                   (page.width / 2
                     - widthOf false (toString (s + i))
                         ((jsRound (page.width / 841 * 8 * 10) : ℚ) / 10) / 2)
                   ((((jsRound (page.width / 841 * 8 * 10) : ℚ) / 10) * 2.6)
                     * 0.25)
                   ((jsRound (page.width / 841 * 8 * 10) : ℚ) / 10) false
                   ⟨0.20, 0.20, 0.20⟩] }))
    ∧ (stampPageNumbersDoc widthOf doc s).length
        = (stampPageNumbersDoc widthOf doc s').length
    ∧ ∀ i : ℕ, ∀ pg, (stampPageNumbersDoc widthOf doc s)[i]? = some pg →
        lastTextOf pg.ops = some (toString (s + i))
        ∧ ∀ pg', (stampPageNumbersDoc widthOf doc s')[i]? = some pg' →
            lastTextOf pg.ops ≠ lastTextOf pg'.ops := by
  refine ⟨?_, ?_, ?_, ?_, ?_⟩
  · simp [stampPageNumbers, hload]
  · simp [stampPageNumbersDoc]
  · intro i
    simp only [stampPageNumbersDoc, List.getElem?_mapIdx]
    cases doc[i]? with
    | none => rfl
    | some page => simp [stampNumberOnPage]
  · simp [stampPageNumbersDoc]
  · intro i pg hpg
    simp only [stampPageNumbersDoc, List.getElem?_mapIdx] at hpg
    cases hdoc : doc[i]? with
    | none => rw [hdoc] at hpg; simp at hpg
    | some page =>
      rw [hdoc] at hpg
      simp at hpg
      refine ⟨hpg ▸ lastTextOf_stampNumberOnPage widthOf page (s + i), ?_⟩
      intro pg' hpg'
      simp only [stampPageNumbersDoc, List.getElem?_mapIdx, hdoc] at hpg'
      simp at hpg'
      rw [← hpg, ← hpg', lastTextOf_stampNumberOnPage,
        lastTextOf_stampNumberOnPage]
      intro hcontra
      rw [Option.some_inj] at hcontra
      have := natToString_inj hcontra
      omega

/-- Witness for C4 on a concrete one-page document, stamped at `7` vs `9`. -/
theorem stampPageNumbers_spec_witness :
    (loadPDF (.saved onePageDoc) = some onePageDoc ∧ (7 : ℕ) ≠ 9)
    ∧ (stampPageNumbers constWidth (.saved onePageDoc) 7
        = .ok (.saved (stampPageNumbersDoc constWidth onePageDoc 7)))
    ∧ (stampPageNumbersDoc constWidth onePageDoc 7).length = 1
    ∧ (stampPageNumbersDoc constWidth onePageDoc 7).map
        (fun p => lastTextOf p.ops) = [some "7"]
    ∧ (stampPageNumbersDoc constWidth onePageDoc 9).map
        (fun p => lastTextOf p.ops) = [some "9"] := by
  have h := stampPageNumbers_spec constWidth (.saved onePageDoc) onePageDoc
    7 9 rfl (by omega)
  exact ⟨⟨rfl, by omega⟩, h.1, by decide, by decide, by decide⟩

/-- Claim C5: when footer numbers are stamped onto the base QIR document,
page 1 is stamped with the number `1` and every later base page `k ≥ 2`
(1-indexed) is stamped with `k + 1`, accounting for the index page
inserted after page 1. -/
theorem stampQIR_numbers (widthOf : FontMetrics) (doc : PDFDoc) :
    (stampQIRDoc widthOf doc).length = doc.length
    ∧ (∀ pg, (stampQIRDoc widthOf doc)[0]? = some pg →
        lastTextOf pg.ops = some (toString 1))
    ∧ ∀ k : ℕ, 2 ≤ k →
        ∀ pg, (stampQIRDoc widthOf doc)[k - 1]? = some pg →
          lastTextOf pg.ops = some (toString (k + 1)) := by
  refine ⟨by simp [stampQIRDoc], ?_, ?_⟩
  · intro pg hpg
    simp only [stampQIRDoc, List.getElem?_mapIdx] at hpg
    cases hdoc : doc[0]? with
    | none => rw [hdoc] at hpg; simp at hpg
    | some page =>
      rw [hdoc] at hpg
      simp at hpg
      rw [← hpg]
      simpa using lastTextOf_stampNumberOnPage widthOf page 1
  · intro k hk pg hpg
    simp only [stampQIRDoc, List.getElem?_mapIdx] at hpg
    cases hdoc : doc[k - 1]? with
    | none => rw [hdoc] at hpg; simp at hpg
    | some page =>
      rw [hdoc] at hpg
      simp at hpg
      rw [← hpg]
      have hk0 : ¬ (k - 1 = 0) := by omega
      have hnum : (if k - 1 = 0 then 1 else k - 1 + 2) = k + 1 := by
        simp [hk0]
        omega
      rw [lastTextOf_stampNumberOnPage, hnum]

/-- Witness for C5 on a concrete three-page base document: final numbers
`1`, `3`, `4`. -/
theorem stampQIR_numbers_witness :
    (stampQIRDoc constWidth [⟨841, 595, []⟩, ⟨841, 595, []⟩, ⟨841, 595, []⟩]).map
      (fun p => lastTextOf p.ops) = [some "1", some "3", some "4"]
    ∧ (2 ≤ 2
    ∧ ∀ pg, (stampQIRDoc constWidth
        [⟨841, 595, []⟩, ⟨841, 595, []⟩, ⟨841, 595, []⟩])[2 - 1]? = some pg →
          lastTextOf pg.ops = some (toString (2 + 1))) := by
  refine ⟨by decide, by omega, ?_⟩
  exact (stampQIR_numbers constWidth
    [⟨841, 595, []⟩, ⟨841, 595, []⟩, ⟨841, 595, []⟩]).2.2 2 (by omega)

/-! ### Supporting lemmas about the handler's success path -/

/-- Every certificate surviving the loading loop carries bytes that parse
to a document with exactly its recorded page count. -/
theorem computeCertData_loadable (fetchUrl : FetchOracle)
    (decode64 : DecodeOracle) (certs : List CertInput) :
    ∀ c ∈ computeCertData fetchUrl decode64 certs,
      ∃ doc, loadPDF c.bytes = some doc ∧ doc.length = c.pageCount := by
  induction certs with
  | nil => simp [computeCertData]
  | cons cert rest ih =>
    intro c hc
    simp only [computeCertData] at hc
    split at hc
    · exact ih c hc
    · split at hc
      · exact ih c hc
      · split at hc
        · exact ih c hc
        · split at hc
          · exact ih c hc
          · rcases List.mem_cons.mp hc with hceq | hmem
            · subst hceq
              rename_i pdf hp
              exact ⟨pdf, hp, rfl⟩
            · exact ih c hmem

theorem certEntriesFrom_loadable (l : List CertDatum)
    (hl : ∀ c ∈ l, ∃ doc, loadPDF c.bytes = some doc
      ∧ doc.length = c.pageCount) :
    ∀ p, ∀ e ∈ certEntriesFrom p l,
      ∃ doc, loadPDF e.bytes = some doc ∧ doc.length = e.pageCount := by
  induction l with
  | nil => simp [certEntriesFrom]
  | cons c rest ih =>
    intro p e he
    rw [certEntriesFrom] at he
    rcases List.mem_cons.mp he with heq | hmem
    · subst heq
      exact hl c (by simp)
    · exact ih (fun x hx => hl x (by simp [hx])) _ e hmem

theorem certEntriesFrom_pageCounts (l : List CertDatum) :
    ∀ p, (certEntriesFrom p l).map (fun e => e.pageCount)
      = l.map (fun c => c.pageCount) := by
  induction l with
  | nil => intro p; rfl
  | cons c rest ih => intro p; simp [certEntriesFrom, ih]

/-- Stamping a certificate whose bytes are loadable always succeeds, and
yields as many pages as the underlying document. -/
theorem certStampedPages_ok (widthOf : FontMetrics) (cert : CertEntry)
    (doc : PDFDoc) (hload : loadPDF cert.bytes = some doc) :
    ∃ pgs, certStampedPages widthOf cert = .ok pgs
      ∧ pgs.length = doc.length := by
  unfold certStampedPages stampHeading
  by_cases hlab : isBlank cert.label
  · rw [if_pos hlab]
    simp only [stampPageNumbers, hload]
    exact ⟨_, rfl, by simp [stampPageNumbersDoc]⟩
  · rw [if_neg hlab, hload]
    cases doc with
    | nil =>
      simp only [stampPageNumbers, hload]
      exact ⟨_, rfl, by simp [stampPageNumbersDoc]⟩
    | cons p0 rest =>
      simp only [stampPageNumbers, loadPDF]
      exact ⟨_, rfl, by simp [stampPageNumbersDoc]⟩

/-- The certificate merge loop succeeds on loadable entries and appends
exactly the sum of their page counts. -/
theorem mergeCertPages_ok (widthOf : FontMetrics) (entries : List CertEntry)
    (h : ∀ e ∈ entries, ∃ doc, loadPDF e.bytes = some doc
      ∧ doc.length = e.pageCount) :
    ∃ pgs, mergeCertPages widthOf entries = .ok pgs
      ∧ pgs.length = (entries.map (fun e => e.pageCount)).sum := by
  induction entries with
  | nil => exact ⟨[], rfl, rfl⟩
  | cons e rest ih =>
    obtain ⟨doc, hload, hlen⟩ := h e (by simp)
    obtain ⟨pgs, hok, hplen⟩ := certStampedPages_ok widthOf e doc hload
    obtain ⟨rpgs, hrok, hrlen⟩ := ih (fun x hx => h x (by simp [hx]))
    refine ⟨pgs ++ rpgs, ?_, ?_⟩
    · rw [mergeCertPages, hok, hrok]
    · simp [hplen, hrlen, hlen]

/-- The handler's success path: once the base document loads and parses,
the request succeeds with the `application/pdf` content type, the
sanitized attachment filename, and the serialized merged pages — the
stamped base page 1, the index page, the stamped base pages 2.., and each
certificate's stamped pages in order. -/
theorem mergeHandler_success (fetchUrl : FetchOracle) (decode64 : DecodeOracle)
    (widthOf : FontMetrics) (req : MergeRequest) (src : Source)
    (qirBytes : Bytes) (qirPdf : PDFDoc)
    (hsrc : req.qirSource = some src)
    (hload : loadPDFFromSource fetchUrl decode64 src = .ok qirBytes)
    (hparse : loadPDF qirBytes = some qirPdf) :
    ∃ certPages,
      mergeCertPages widthOf (computeCertEntries qirPdf.length
          (computeCertData fetchUrl decode64 (req.certificates.getD [])))
        = .ok certPages
      ∧ certPages.length
          = ((computeCertData fetchUrl decode64
              (req.certificates.getD [])).map (fun c => c.pageCount)).sum
      ∧ mergeHandler fetchUrl decode64 widthOf req
          = .success "application/pdf"
              ("attachment; filename=\""
                ++ sanitizeFilename ("QIR-" ++ req.reportNo.getD "QIR" ++ "-"
                  ++ req.date.getD "" ++ ".pdf") ++ "\"")
              (.saved ((stampQIRDoc widthOf qirPdf).take 1
                ++ (buildIndexPage widthOf (req.reportNo.getD "QIR")
                    (req.partName.getD "") (req.date.getD "") INSPECTION_PAGE
                    (computeCertEntries qirPdf.length
                      (computeCertData fetchUrl decode64
                        (req.certificates.getD [])))).take 1
                ++ (stampQIRDoc widthOf qirPdf).drop 1 ++ certPages)) := by
  have hloadable := certEntriesFrom_loadable _
    (computeCertData_loadable fetchUrl decode64 (req.certificates.getD []))
    (qirPdf.length + 2)
  obtain ⟨certPages, hok, hlen⟩ := mergeCertPages_ok widthOf
    (computeCertEntries qirPdf.length
      (computeCertData fetchUrl decode64 (req.certificates.getD []))) hloadable
  refine ⟨certPages, hok, ?_, ?_⟩
  · rw [hlen, computeCertEntries, certEntriesFrom_pageCounts]
  · simp only [mergeHandler, hsrc, hload, hparse, computeCertEntries] at *
    rw [hok]

/-- Splitting the stamped base document at its first page: page 1 keeps
the number `1`, and the pages after it carry `i + 3` at 0-based offset `i`
into the tail. -/
theorem stampQIRDoc_cons (widthOf : FontMetrics) (q0 : Page) (qrest : List Page) :
    stampQIRDoc widthOf (q0 :: qrest)
      = stampNumberOnPage widthOf q0 1
        :: qrest.mapIdx (fun i p => stampNumberOnPage widthOf p (i + 3)) := by
  simp only [stampQIRDoc, List.mapIdx_cons, if_pos rfl]
  congr 1

/-- Claim C2: for every successful `/merge` request on a base document
with pages `q0 :: qrest` (so `B ≥ 1`), the merged document's page
sequence is exactly: base page 1 (stamped `1`), then the index page, then
base pages 2..B in original order (stamped `3, 4, ...`), then each
surviving certificate's stamped pages contiguously in input order; the
output page count is `B + 1 + Σ pageCount` over the surviving
certificates. -/
theorem merge_page_sequence (fetchUrl : FetchOracle) (decode64 : DecodeOracle)
    (widthOf : FontMetrics) (req : MergeRequest) (src : Source)
    (qirBytes : Bytes) (q0 : Page) (qrest : List Page)
    (hsrc : req.qirSource = some src)
    (hload : loadPDFFromSource fetchUrl decode64 src = .ok qirBytes)
    (hparse : loadPDF qirBytes = some (q0 :: qrest)) :
    ∃ certPages,
      mergeCertPages widthOf (computeCertEntries (q0 :: qrest).length
          (computeCertData fetchUrl decode64 (req.certificates.getD [])))
        = .ok certPages
      ∧ mergeHandler fetchUrl decode64 widthOf req
          = .success "application/pdf"
              ("attachment; filename=\""
                ++ sanitizeFilename ("QIR-" ++ req.reportNo.getD "QIR" ++ "-"
                  ++ req.date.getD "" ++ ".pdf") ++ "\"")
              (.saved (stampNumberOnPage widthOf q0 1
                :: (buildIndexPage widthOf (req.reportNo.getD "QIR")
                    (req.partName.getD "") (req.date.getD "") INSPECTION_PAGE
                    (computeCertEntries (q0 :: qrest).length
                      (computeCertData fetchUrl decode64
                        (req.certificates.getD [])))
                  ++ qrest.mapIdx (fun i p => stampNumberOnPage widthOf p (i + 3))
                  ++ certPages)))
      ∧ (stampNumberOnPage widthOf q0 1
          :: (buildIndexPage widthOf (req.reportNo.getD "QIR")
              (req.partName.getD "") (req.date.getD "") INSPECTION_PAGE
              (computeCertEntries (q0 :: qrest).length
                (computeCertData fetchUrl decode64 (req.certificates.getD [])))
            ++ qrest.mapIdx (fun i p => stampNumberOnPage widthOf p (i + 3))
            ++ certPages)).length
          = (q0 :: qrest).length + 1
            + ((computeCertData fetchUrl decode64
                (req.certificates.getD [])).map (fun c => c.pageCount)).sum := by
  obtain ⟨certPages, hok, hlen, hresp⟩ := mergeHandler_success fetchUrl decode64
    widthOf req src qirBytes (q0 :: qrest) hsrc hload hparse
  refine ⟨certPages, hok, ?_, ?_⟩
  · rw [hresp]
    rw [stampQIRDoc_cons]
    simp [buildIndexPage]
  · simp [buildIndexPage, hlen]
    omega

/-- Witness for C2 on the spec's end-to-end scenario shape: a 2-page base
and one 1-page certificate give a 4-page merged output. -/
theorem merge_page_sequence_witness :
    (({ reportNo := some "R1", partName := some "Widget",
        date := some "2026-01-01",
        qirSource := some ⟨"url", "http://host/q.pdf"⟩,
        certificates := some [⟨some "Mill TC", "base64", some "AAAA"⟩] }
          : MergeRequest).qirSource = some ⟨"url", "http://host/q.pdf"⟩)
    ∧ (loadPDFFromSource
        (fun _ => FetchOutcome.response 200
          (.raw 0 (some [⟨841, 595, []⟩, ⟨841, 595, []⟩])))
        (fun _ => .raw 1 (some onePageDoc)) ⟨"url", "http://host/q.pdf"⟩
        = Except.ok (Bytes.raw 0 (some [⟨841, 595, []⟩, ⟨841, 595, []⟩])))
    ∧ (loadPDF (.raw 0 (some [⟨841, 595, []⟩, ⟨841, 595, []⟩]))
        = some [⟨841, 595, []⟩, ⟨841, 595, []⟩])
    ∧ ∃ resp, mergeHandler
        (fun _ => .response 200 (.raw 0 (some [⟨841, 595, []⟩, ⟨841, 595, []⟩])))
        (fun _ => .raw 1 (some onePageDoc)) constWidth
        { reportNo := some "R1", partName := some "Widget",
          date := some "2026-01-01",
          qirSource := some ⟨"url", "http://host/q.pdf"⟩,
          certificates := some [⟨some "Mill TC", "base64", some "AAAA"⟩] }
        = resp
      ∧ (match resp with
         | .success ct _ (.saved pages) =>
             ct = "application/pdf" ∧ pages.length = 2 + 1 + 1
         | _ => False) := by
  refine ⟨rfl, rfl, rfl, ?_⟩
  obtain ⟨certPages, hok, hresp, hcount⟩ := merge_page_sequence
    (fun _ => .response 200 (.raw 0 (some [⟨841, 595, []⟩, ⟨841, 595, []⟩])))
    (fun _ => .raw 1 (some onePageDoc)) constWidth
    { reportNo := some "R1", partName := some "Widget",
      date := some "2026-01-01",
      qirSource := some ⟨"url", "http://host/q.pdf"⟩,
      certificates := some [⟨some "Mill TC", "base64", some "AAAA"⟩] }
    ⟨"url", "http://host/q.pdf"⟩
    (.raw 0 (some [⟨841, 595, []⟩, ⟨841, 595, []⟩])) ⟨841, 595, []⟩
    [⟨841, 595, []⟩] rfl rfl rfl
  refine ⟨_, hresp, ?_, ?_⟩
  · rfl
  · simp only [List.length_cons] at hcount ⊢
    rw [hcount]
    decide

/-- Claim C6: a certificate whose `value` is missing or whitespace-only is
skipped before any resolution, and a certificate whose fetch or parse
fails is dropped — in both cases it contributes nothing to `certData`
(hence no pages and no `certEntries` entry), and the request still
succeeds with the remaining inputs.  Here `c1` is blank, `c2` fails to
fetch or parse, and the handler still answers with a success response. -/
theorem cert_failures_dropped (fetchUrl : FetchOracle) (decode64 : DecodeOracle)
    (widthOf : FontMetrics) (c1 c2 : CertInput) (rest : List CertInput)
    (req : MergeRequest) (v2 : String) (src : Source) (qirBytes : Bytes)
    (qirPdf : PDFDoc)
    (h1 : c1.value = none ∨ ∃ v, c1.value = some v ∧ isBlank v = true)
    (h2v : c2.value = some v2) (h2b : isBlank v2 = false)
    (h2f : (∃ m, loadPDFFromSource fetchUrl decode64 ⟨c2.type, v2⟩ = .error m)
      ∨ ∃ b, loadPDFFromSource fetchUrl decode64 ⟨c2.type, v2⟩ = .ok b
          ∧ loadPDF b = none)
    (hcerts : req.certificates = some (c1 :: c2 :: rest))
    (hsrc : req.qirSource = some src)
    (hload : loadPDFFromSource fetchUrl decode64 src = .ok qirBytes)
    (hparse : loadPDF qirBytes = some qirPdf) :
    computeCertData fetchUrl decode64 (c1 :: c2 :: rest)
      = computeCertData fetchUrl decode64 rest
    ∧ computeCertEntries qirPdf.length
        (computeCertData fetchUrl decode64 (c1 :: c2 :: rest))
      = computeCertEntries qirPdf.length
        (computeCertData fetchUrl decode64 rest)
    ∧ ∃ ct cd body,
        mergeHandler fetchUrl decode64 widthOf req = .success ct cd body := by
  have hs1 : computeCertData fetchUrl decode64 (c1 :: c2 :: rest)
      = computeCertData fetchUrl decode64 (c2 :: rest) := by
    rcases h1 with hv | ⟨v, hv, hb⟩
    · simp [computeCertData, hv]
    · simp [computeCertData, hv, hb]
  have hs2 : computeCertData fetchUrl decode64 (c2 :: rest)
      = computeCertData fetchUrl decode64 rest := by
    rcases h2f with ⟨m, hm⟩ | ⟨b, hb, hp⟩
    · simp [computeCertData, h2v, h2b, hm]
    · simp [computeCertData, h2v, h2b, hb, hp]
  refine ⟨hs1.trans hs2, by rw [hs1, hs2], ?_⟩
  obtain ⟨certPages, _, _, hresp⟩ := mergeHandler_success fetchUrl decode64
    widthOf req src qirBytes qirPdf hsrc hload hparse
  exact ⟨_, _, _, hresp⟩

/-- Witness for C6: a blank certificate, a certificate whose URL answers
`404`, and a loadable base document; the handler still succeeds. -/
theorem cert_failures_dropped_witness :
    (computeCertData
        (fun u => if u = "http://host/q.pdf"
          then FetchOutcome.response 200 (.raw 0 (some onePageDoc))
          else FetchOutcome.response 404 (.raw 9 none))
        (fun _ => .raw 1 (some onePageDoc))
        [⟨some "Blank", "base64", some " "⟩,
         ⟨some "Bad", "url", some "http://bad"⟩]
      = computeCertData
        (fun u => if u = "http://host/q.pdf"
          then FetchOutcome.response 200 (.raw 0 (some onePageDoc))
          else FetchOutcome.response 404 (.raw 9 none))
        (fun _ => .raw 1 (some onePageDoc)) [])
    ∧ ∃ ct cd body,
        mergeHandler
          (fun u => if u = "http://host/q.pdf"
            then FetchOutcome.response 200 (.raw 0 (some onePageDoc))
            else FetchOutcome.response 404 (.raw 9 none))
          (fun _ => .raw 1 (some onePageDoc)) constWidth
          { reportNo := some "R1", partName := some "P", date := some "D",
            qirSource := some ⟨"url", "http://host/q.pdf"⟩,
            certificates := some [⟨some "Blank", "base64", some " "⟩,
              ⟨some "Bad", "url", some "http://bad"⟩] }
          = .success ct cd body := by
  have h := cert_failures_dropped
    (fun u => if u = "http://host/q.pdf"
      then FetchOutcome.response 200 (.raw 0 (some onePageDoc))
      else FetchOutcome.response 404 (.raw 9 none))
    (fun _ => .raw 1 (some onePageDoc)) constWidth
    ⟨some "Blank", "base64", some " "⟩ ⟨some "Bad", "url", some "http://bad"⟩
    [] { reportNo := some "R1", partName := some "P", date := some "D",
         qirSource := some ⟨"url", "http://host/q.pdf"⟩,
         certificates := some [⟨some "Blank", "base64", some " "⟩,
           ⟨some "Bad", "url", some "http://bad"⟩] }
    "http://bad" ⟨"url", "http://host/q.pdf"⟩ (.raw 0 (some onePageDoc))
    onePageDoc
    (Or.inr ⟨" ", rfl, by decide⟩) rfl (by decide)
    (Or.inl ⟨"HTTP 404 fetching PDF", rfl⟩) rfl rfl rfl rfl
  exact ⟨h.1, h.2.2⟩

/-- Counterexample to claim C7 as stated: `stampPageNumbers` (unlike
`stampHeading`) has no try/catch, so on unparseable input bytes it
propagates an error instead of returning the original unmodified bytes. -/
theorem stamping_fallback_cex :
    loadPDF (Bytes.raw 0 none) = none
    ∧ stampPageNumbers constWidth (Bytes.raw 0 none) 5
        = Except.error "Failed to parse PDF document"
    ∧ stampPageNumbers constWidth (Bytes.raw 0 none) 5
        ≠ Except.ok (Bytes.raw 0 none) := by
  refine ⟨rfl, rfl, fun h => Except.noConfusion (rfl.trans h : Except.error _ = _)⟩

/-- Claim C7 amended: when the underlying document cannot be parsed,
`stampHeading` returns the original unmodified bytes (its try/catch), but
`stampPageNumbers` propagates an error instead of falling back.  Inside
`/merge` the error path cannot fire: `stampPageNumbers` only ever receives
the output of `stampHeading` on certificate bytes that already parsed
during loading, so stamping still never fails a `/merge` request. -/
theorem stamping_fallback_behaviour (widthOf : FontMetrics) (pdfBytes : Bytes)
    (label : String) (s : ℕ) (hload : loadPDF pdfBytes = none) :
    stampHeading widthOf pdfBytes label = pdfBytes
    ∧ stampPageNumbers widthOf pdfBytes s
        = .error "Failed to parse PDF document" := by
  constructor
  · unfold stampHeading
    by_cases h : isBlank label
    · simp [h]
    · simp [h, hload]
  · simp [stampPageNumbers, hload]

/-- Witness for the amended C7 on concrete unparseable bytes. -/
theorem stamping_fallback_behaviour_witness :
    loadPDF (Bytes.raw 1 none) = none
    ∧ stampHeading constWidth (Bytes.raw 1 none) "Mill TC" = Bytes.raw 1 none
    ∧ stampPageNumbers constWidth (Bytes.raw 1 none) 7
        = .error "Failed to parse PDF document" :=
  ⟨rfl,
   (stamping_fallback_behaviour constWidth (Bytes.raw 1 none) "Mill TC" 7 rfl).1,
   (stamping_fallback_behaviour constWidth (Bytes.raw 1 none) "Mill TC" 7 rfl).2⟩

/-- Claim C8: every failing `/merge` response is a `500` whose body is the
underlying error message (the `failure` constructor carries no document,
so no partial output is sent); in particular a missing `qirSource`, a
failing base-document fetch, and an unparseable base document each
surface their message as a `500`. -/
theorem merge_failures_give_500 (fetchUrl : FetchOracle)
    (decode64 : DecodeOracle) (widthOf : FontMetrics) (req : MergeRequest) :
    (∀ st m, mergeHandler fetchUrl decode64 widthOf req = .failure st m →
      st = 500)
    ∧ (∀ src m, req.qirSource = some src →
        loadPDFFromSource fetchUrl decode64 src = .error m →
        mergeHandler fetchUrl decode64 widthOf req = .failure 500 m)
    ∧ (∀ src b, req.qirSource = some src →
        loadPDFFromSource fetchUrl decode64 src = .ok b → loadPDF b = none →
        mergeHandler fetchUrl decode64 widthOf req
          = .failure 500 "Failed to parse PDF document")
    ∧ (req.qirSource = none →
        mergeHandler fetchUrl decode64 widthOf req
          = .failure 500 "Cannot read properties of undefined (reading 'type')") := by
  refine ⟨?_, ?_, ?_, ?_⟩
  · intro st m h
    simp only [mergeHandler] at h
    split at h
    · simp only [MergeResponse.failure.injEq] at h
      exact h.1.symm
    · split at h
      · simp only [MergeResponse.failure.injEq] at h
        exact h.1.symm
      · split at h
        · simp only [MergeResponse.failure.injEq] at h
          exact h.1.symm
        · exact MergeResponse.noConfusion h
  · intro src m hsrc hm
    simp [mergeHandler, hsrc, hm]
  · intro src b hsrc hb hp
    simp [mergeHandler, hsrc, hb, hp]
  · intro hnone
    simp [mergeHandler, hnone]

/-- Witness for C8: a base document whose URL answers `404` produces
`500` with the message `HTTP 404 fetching PDF`. -/
theorem merge_failures_give_500_witness :
    mergeHandler (fun _ => FetchOutcome.response 404 (.raw 9 none))
      (fun _ => .raw 1 none) constWidth
      { reportNo := some "R1", partName := some "P", date := some "D",
        qirSource := some ⟨"url", "http://gone"⟩, certificates := some [] }
      = .failure 500 "HTTP 404 fetching PDF" :=
  (merge_failures_give_500 (fun _ => FetchOutcome.response 404 (.raw 9 none))
    (fun _ => .raw 1 none) constWidth
    { reportNo := some "R1", partName := some "P", date := some "D",
      qirSource := some ⟨"url", "http://gone"⟩,
      certificates := some [] }).2.1
    ⟨"url", "http://gone"⟩ "HTTP 404 fetching PDF" rfl rfl

/-- The `Content-Disposition` header of a response, when it succeeded. -/
def responseDisposition : MergeResponse → Option String
  | .success _ cd _ => some cd
  | .failure _ _ => none

/-- Modelled from the spec's words ("non-alphanumeric characters other
than `- _ .` stripped from the filename"), for comparison with the code's
sanitizer: stripping removes the disallowed characters. -/
def specStripFilename (s : String) : String :=
  String.mk (s.data.filter fun c => isFilenameChar c)

/-- Counterexample to claim C9 as stated: with `reportNo = "A B"` the
handler emits the filename `QIR-A_B-2026.pdf` — the space is replaced by
an underscore, not stripped, which would have given `QIR-AB-2026.pdf`. -/
theorem merge_filename_cex :
    responseDisposition (mergeHandler (fun _ => FetchOutcome.netError "unused")
        (fun _ => .saved onePageDoc) constWidth
        { reportNo := some "A B", partName := some "", date := some "2026",
          qirSource := some ⟨"base64", "q"⟩, certificates := some [] })
      = some "attachment; filename=\"QIR-A_B-2026.pdf\""
    ∧ specStripFilename "QIR-A B-2026.pdf" = "QIR-AB-2026.pdf"
    ∧ ("attachment; filename=\"QIR-A_B-2026.pdf\"" : String)
        ≠ "attachment; filename=\"QIR-AB-2026.pdf\"" := by
  refine ⟨rfl, by decide, by decide⟩

/-- Claim C9 amended: every successful `/merge` response carries
`Content-Type: application/pdf` and a `Content-Disposition` attachment
whose filename is `QIR-<reportNo>-<date>.pdf` in which every character
that is not alphanumeric and not one of `-`, `_`, `.` has been **replaced
by an underscore** (the filename keeps its length; it is not stripped). -/
theorem merge_response_headers (fetchUrl : FetchOracle)
    (decode64 : DecodeOracle) (widthOf : FontMetrics) (req : MergeRequest)
    (src : Source) (qirBytes : Bytes) (qirPdf : PDFDoc)
    (hsrc : req.qirSource = some src)
    (hload : loadPDFFromSource fetchUrl decode64 src = .ok qirBytes)
    (hparse : loadPDF qirBytes = some qirPdf) :
    (∃ body, mergeHandler fetchUrl decode64 widthOf req
      = .success "application/pdf"
          ("attachment; filename=\""
            ++ sanitizeFilename ("QIR-" ++ req.reportNo.getD "QIR" ++ "-"
              ++ req.date.getD "" ++ ".pdf") ++ "\"") body)
    ∧ (∀ s : String, (sanitizeFilename s).data.length = s.data.length)
    ∧ ∀ s : String, ∀ i : ℕ, (sanitizeFilename s).data[i]?
        = (s.data[i]?.map fun c => if isFilenameChar c then c else '_') := by
  refine ⟨?_, ?_, ?_⟩
  · obtain ⟨certPages, _, _, hresp⟩ := mergeHandler_success fetchUrl decode64
      widthOf req src qirBytes qirPdf hsrc hload hparse
    exact ⟨_, hresp⟩
  · intro s
    simp [sanitizeFilename]
  · intro s i
    simp [sanitizeFilename]

/-- Witness for the amended C9: `reportNo = "A/B"` and `date = "01 02"`
give the filename `QIR-A_B-01_02.pdf`. -/
theorem merge_response_headers_witness :
    (∃ body, mergeHandler (fun _ => FetchOutcome.netError "unused")
        (fun _ => .saved onePageDoc) constWidth
        { reportNo := some "A/B", partName := some "", date := some "01 02",
          qirSource := some ⟨"base64", "q"⟩, certificates := some [] }
      = .success "application/pdf"
          ("attachment; filename=\""
            ++ sanitizeFilename ("QIR-" ++ "A/B" ++ "-" ++ "01 02" ++ ".pdf")
            ++ "\"") body)
    ∧ sanitizeFilename ("QIR-" ++ "A/B" ++ "-" ++ "01 02" ++ ".pdf")
        = "QIR-A_B-01_02.pdf" := by
  have h := merge_response_headers (fun _ => FetchOutcome.netError "unused")
    (fun _ => .saved onePageDoc) constWidth
    { reportNo := some "A/B", partName := some "", date := some "01 02",
      qirSource := some ⟨"base64", "q"⟩, certificates := some [] }
    ⟨"base64", "q"⟩ (.saved onePageDoc) onePageDoc rfl rfl rfl
  exact ⟨h.1, by decide⟩

/-- Claim C10: absent `reportNo`, `partName`, `date` and `certificates`
fields are replaced by the defaults `'QIR'`, `''`, `''` and `[]`, and the
request is processed with them rather than rejected: the handler behaves
identically to the fully-defaulted request, succeeds, uses the filename
`QIR-QIR-.pdf`, and renders the defaults into the index page's header
line `QIR   ·      ·   ` on output page 2. -/
theorem merge_defaults (fetchUrl : FetchOracle) (decode64 : DecodeOracle)
    (widthOf : FontMetrics) (src : Source) (qirBytes : Bytes) (q0 : Page)
    (qrest : List Page)
    (hload : loadPDFFromSource fetchUrl decode64 src = .ok qirBytes)
    (hparse : loadPDF qirBytes = some (q0 :: qrest)) :
    mergeHandler fetchUrl decode64 widthOf
        ⟨none, none, none, some src, none⟩
      = mergeHandler fetchUrl decode64 widthOf
        ⟨some "QIR", some "", some "", some src, some []⟩
    ∧ ∃ pages,
        mergeHandler fetchUrl decode64 widthOf
            ⟨none, none, none, some src, none⟩
          = .success "application/pdf"
              "attachment; filename=\"QIR-QIR-.pdf\"" (.saved pages)
        ∧ ∃ idx, pages[1]? = some idx
            ∧ "QIR   ·      ·   " ∈ textsOf idx.ops := by
  refine ⟨rfl, ?_⟩
  obtain ⟨certPages, hok, _, hresp⟩ := mergeHandler_success fetchUrl decode64
    widthOf ⟨none, none, none, some src, none⟩ src qirBytes (q0 :: qrest)
    rfl hload hparse
  have hempty : certPages = [] := by
    have : (Except.ok [] : Except String (List Page)) = .ok certPages := hok
    exact (Except.ok.inj this).symm
  subst hempty
  rw [stampQIRDoc_cons] at hresp
  refine ⟨stampNumberOnPage widthOf q0 1
      :: (buildIndexPage widthOf "QIR" "" "" INSPECTION_PAGE
           (computeCertEntries (q0 :: qrest).length
             (computeCertData fetchUrl decode64 []))
         ++ (qrest.mapIdx (fun i p => stampNumberOnPage widthOf p (i + 3))
             ++ [])), ?_, ?_⟩
  · exact hresp
  · have htx := buildIndexPage_textsOf widthOf "QIR" "" "" INSPECTION_PAGE
      (computeCertEntries (q0 :: qrest).length
        (computeCertData fetchUrl decode64 []))
    cases hb : buildIndexPage widthOf "QIR" "" "" INSPECTION_PAGE
        (computeCertEntries (q0 :: qrest).length
          (computeCertData fetchUrl decode64 [])) with
    | nil => rw [hb] at htx; simp at htx
    | cons idx rest2 =>
      rw [hb] at htx
      simp only [List.map_cons] at htx
      have hidx : textsOf idx.ops = _ := (List.cons.inj htx).1
      refine ⟨idx, ?_, ?_⟩
      · simp
      · rw [hidx]
        have hce : computeCertEntries (q0 :: qrest).length
            (computeCertData fetchUrl decode64 []) = [] := rfl
        rw [hce]
        decide

/-- Witness for C10: a concrete loadable base document with every
optional request field absent. -/
theorem merge_defaults_witness :
    (loadPDFFromSource (fun _ => FetchOutcome.netError "unused")
        (fun _ => .saved [⟨841, 595, []⟩, ⟨841, 595, []⟩]) ⟨"base64", "q"⟩
      = Except.ok (Bytes.saved [⟨841, 595, []⟩, ⟨841, 595, []⟩]))
    ∧ (mergeHandler (fun _ => FetchOutcome.netError "unused")
        (fun _ => .saved [⟨841, 595, []⟩, ⟨841, 595, []⟩]) constWidth
        ⟨none, none, none, some ⟨"base64", "q"⟩, none⟩
      = mergeHandler (fun _ => FetchOutcome.netError "unused")
        (fun _ => .saved [⟨841, 595, []⟩, ⟨841, 595, []⟩]) constWidth
        ⟨some "QIR", some "", some "", some ⟨"base64", "q"⟩, some []⟩)
    ∧ ∃ pages,
        mergeHandler (fun _ => FetchOutcome.netError "unused")
          (fun _ => .saved [⟨841, 595, []⟩, ⟨841, 595, []⟩]) constWidth
          ⟨none, none, none, some ⟨"base64", "q"⟩, none⟩
          = .success "application/pdf"
              "attachment; filename=\"QIR-QIR-.pdf\"" (.saved pages)
        ∧ ∃ idx, pages[1]? = some idx
            ∧ "QIR   ·      ·   " ∈ textsOf idx.ops := by
  have h := merge_defaults (fun _ => FetchOutcome.netError "unused")
    (fun _ => .saved [⟨841, 595, []⟩, ⟨841, 595, []⟩]) constWidth
    ⟨"base64", "q"⟩ (.saved [⟨841, 595, []⟩, ⟨841, 595, []⟩])
    ⟨841, 595, []⟩ [⟨841, 595, []⟩] rfl rfl
  exact ⟨rfl, h.1, h.2⟩

end QIRMerge
